import Mathlib

/-!
Shallow embedding of the project-management assistant's agent core
(backend/app/agent/core.py, memory.py, tools/task_tools.py, tools/plan_tools.py,
backend/app/db/repositories/{task_repo,chat_repo,plan_repo}.py and
backend/app/services/providers/anthropic_provider.py), together with theorems
settling the frozen claims about it.

Conventions of the embedding:
* Python JSON-ish dict/list values are modelled by the inductive `Json`;
  dict iteration order is the list order of the `obj` field list.
* Database rows live in a `DB` record; each table is a list kept in insertion
  order, which models ascending `created_at` (timestamps are monotone within a
  session).  Row ids are drawn from a fresh-id counter.
* Python exceptions raised by a tool body are modelled with `Except String`,
  the error carrying `str(exception)`; state mutations performed before the
  raise are kept (the second component of each result is the state reached).
* `await`/async structure is irrelevant to the values computed and is erased;
  the single-threaded cooperative scheduling of one turn makes the code's
  data flow exactly the sequential one embedded here.
-/

namespace PMAssist

/-- JSON-like values as stored in JSON columns and passed between the agent,
its tools and the LLM.  Objects keep their key order (Python dicts preserve
insertion order). -/
inductive Json where
  | null : Json
  | bool (b : Bool) : Json
  | num (n : Int) : Json
  | str (s : String) : Json
  | arr (elems : List Json) : Json
  | obj (fields : List (String × Json)) : Json
deriving Inhabited

/-- Python dict lookup `d.get(k, default)`; on a non-dict the tools and memory
code never reach this call with a default (their writers only store dicts), so
the default is returned there as well. -/
def Json.get (j : Json) (k : String) (default : Json) : Json :=
  match j with
  | .obj fields =>
    match fields.lookup k with
    | some v => v
    | none => default
  | _ => default

/-- Python truthiness of a JSON value (`if msg.tool_calls:`, `if calls:`). -/
def Json.truthy : Json → Bool
  | .null => false
  | .bool b => b
  | .num n => n != 0
  | .str s => s ≠ ""
  | .arr elems => !elems.isEmpty
  | .obj fields => !fields.isEmpty

/-- The element list of a JSON array (the only values iterated with
`for ... in` by the embedded code are lists). -/
def Json.asArr : Json → List Json
  | .arr elems => elems
  | _ => []

/-- The string payload of a JSON string, with a fallback.  The embedded code
extracts `tool_name` values that its writer (the agent loop) always stores as
strings. -/
def Json.asStr (j : Json) (default : String) : String :=
  match j with
  | .str s => s
  | _ => default

mutual
/-- Serializer mirroring `json.dumps` with default separators, specialised to the values the code
serializes (string escaping is not modelled; the titles and messages involved
contain no quotes or control characters). -/
def jsonDumps : Json → String
  | .null => "null"
  | .bool true => "true"
  | .bool false => "false"
  | .num n => toString n
  | .str s => "\"" ++ s ++ "\""
  | .arr elems => "[" ++ jsonDumpsList elems ++ "]"
  | .obj fields => "\x7b" ++ jsonDumpsFields fields ++ "\x7d"

/-- Comma-separated serialization of array elements. -/
def jsonDumpsList : List Json → String
  | [] => ""
  | [x] => jsonDumps x
  | x :: y :: rest => jsonDumps x ++ ", " ++ jsonDumpsList (y :: rest)

/-- Comma-separated serialization of object fields. -/
def jsonDumpsFields : List (String × Json) → String
  | [] => ""
  | [(k, v)] => "\"" ++ k ++ "\": " ++ jsonDumps v
  | (k, v) :: y :: rest =>
    "\"" ++ k ++ "\": " ++ jsonDumps v ++ ", " ++ jsonDumpsFields (y :: rest)
end

/-! ## Data model (backend/app/db/models) -/

/-- A row of the `tasks` table (db/models/task.py).  `created_at` ordering is
the position in `DB.tasks`; dates are kept in ISO string form. -/
structure Task where
  id : Nat
  project_id : Nat
  parent_task_id : Option Nat := none
  title : String
  description : Option String := none
  status : String := "todo"
  priority : String := "medium"
  assignee : Option String := none
  due_date : Option String := none
  order : Option Nat := none
deriving DecidableEq, Repr

/-- A row of the `plans` table (db/models/plan.py). -/
structure Plan where
  id : Nat
  project_id : Nat
  parent_task_id : Nat
  goal : String
  status : String := "active"
  current_step : Nat := 0
  step_order : List String := []
deriving DecidableEq, Repr

/-- A row of the `chat_messages` table (db/models/chat.py).  `tool_calls` is a
JSON column, `none` modelling SQL NULL. -/
structure ChatMessage where
  id : Nat
  project_id : Nat
  role : String
  content : String
  tool_calls : Option Json := none
  tool_results : Option Json := none

/-- The persistent store: one list per table, kept in insertion order
(ascending `created_at`), plus a fresh-id counter shared by all tables. -/
structure DB where
  tasks : List Task := []
  plans : List Plan := []
  msgs : List ChatMessage := []
  nextId : Nat := 0

/-- The empty database. -/
def DB.empty : DB := {}

/-! ## Repositories (backend/app/db/repositories) -/

/-- Schema `TaskCreate` (schemas/task.py): the payload accepted by
`TaskRepository.create`. -/
structure TaskCreate where
  title : String
  description : Option String := none
  priority : Option String := some "medium"
  assignee : Option String := none
  due_date : Option String := none
  parent_task_id : Option Nat := none
deriving DecidableEq, Repr

/-- Embedding of `TaskRepository.create` (task_repo.py lines 16-31): builds the row —
`priority=data.priority or "medium"` maps falsy (absent or empty) priority to
"medium" — adds it and commits.  Returns the refreshed row and the new store. -/
def taskRepoCreate (db : DB) (project_id : Nat) (data : TaskCreate) : Task × DB :=
  let prio := match data.priority with
    | none => "medium"
    | some p => if p = "" then "medium" else p
  let task : Task :=
    { id := db.nextId
      project_id := project_id
      parent_task_id := data.parent_task_id
      title := data.title
      description := data.description
      priority := prio
      assignee := data.assignee
      due_date := data.due_date }
  (task, { db with tasks := db.tasks ++ [task], nextId := db.nextId + 1 })

/-- Embedding of `TaskRepository.list_by_project` (task_repo.py lines 62-81): filter by
project and the optional status/priority/assignee filters, then
`order_by(created_at.desc())` — the reverse of insertion order. -/
def taskListByProject (db : DB) (project_id : Nat)
    (status priority assignee : Option String := none) : List Task :=
  let base := db.tasks.filter fun t =>
    t.project_id == project_id
      && (match status with | some s => t.status == s | none => true)
      && (match priority with | some p => t.priority == p | none => true)
      && (match assignee with | some a => t.assignee == some a | none => true)
  base.reverse

/-- Embedding of `PlanRepository.create` (plan_repo.py lines 15-26). -/
def planRepoCreate (db : DB) (project_id : Nat) (goal : String)
    (parent_task_id : Nat) (step_order : List String) : Plan × DB :=
  let plan : Plan :=
    { id := db.nextId
      project_id := project_id
      parent_task_id := parent_task_id
      goal := goal
      step_order := step_order }
  (plan, { db with plans := db.plans ++ [plan], nextId := db.nextId + 1 })

/-- Embedding of `ChatRepository.create` (chat_repo.py lines 15-34). -/
def chatRepoCreate (db : DB) (project_id : Nat) (role content : String)
    (tool_calls : Option Json := none) (tool_results : Option Json := none) :
    ChatMessage × DB :=
  let msg : ChatMessage :=
    { id := db.nextId
      project_id := project_id
      role := role
      content := content
      tool_calls := tool_calls
      tool_results := tool_results }
  (msg, { db with msgs := db.msgs ++ [msg], nextId := db.nextId + 1 })

/-- Embedding of `ChatRepository.list_by_project` (chat_repo.py lines 36-45):
`order_by(created_at.asc()).limit(limit)` — the FIRST `limit` messages of the
project in chronological order. -/
def chatListByProject (db : DB) (project_id : Nat) (limit : Nat) : List ChatMessage :=
  ((db.msgs.filter fun m => m.project_id == project_id).take limit)

/-! ## LLM-native message shapes (the dict shapes built in memory.py and
core.py for the provider's `messages` argument) -/

/-- One content block of a multi-part message: `{"type": "text", ...}`,
`{"type": "tool_use", ...}` or `{"type": "tool_result", ...}`. -/
inductive Block where
  | text (txt : String) : Block
  | toolUse (tid tname : String) (input : Json) : Block
  | toolResult (tool_use_id : String) (content : String) : Block

/-- A message's `content` field: a plain string or a list of blocks. -/
inductive MsgContent where
  | text (s : String) : MsgContent
  | blocks (bs : List Block) : MsgContent

/-- One entry of the `messages` list handed to the LLM. -/
structure LMsg where
  role : String
  content : MsgContent

/-! ## Memory (backend/app/agent/memory.py) -/

/-- The synthesized history id `f"hist_\x7bid(msg)\x7d_\x7bi\x7d"`
(memory.py lines 51 and 63).  CPython's `id(msg)` is an identifier unique per
message object within one `get_chat_history` call; it is modelled by the
message row id, which has the same uniqueness. -/
def histId (msgId i : Nat) : String :=
  "hist_" ++ toString msgId ++ "_" ++ toString i

/-- The slice of `AgentMemory.get_chat_history`'s loop body handling one
stored message (memory.py lines 36-75): an assistant message with a truthy
`tool_calls` column whose `"calls"` list is non-empty becomes one assistant
turn (original text, if non-empty, plus one `tool_use` block per call) followed
by one user turn (one `tool_result` block per call, the result serialized with
`json.dumps`); every other message passes through with its plain content. -/
def reconstructMsg (msg : ChatMessage) : List LMsg :=
  match msg.tool_calls with
  | some tc =>
    if msg.role = "assistant" ∧ tc.truthy then
      let calls := (tc.get "calls" (.arr [])).asArr
      if calls.isEmpty then
        [{ role := msg.role, content := .text msg.content }]
      else
        let assistant_content :=
          (if msg.content ≠ "" then [Block.text msg.content] else [])
            ++ calls.mapIdx fun i c =>
                Block.toolUse (histId msg.id i)
                  ((c.get "tool_name" (.str "unknown")).asStr "unknown")
                  (c.get "arguments" (.obj []))
        let tool_result_content :=
          calls.mapIdx fun i c =>
            Block.toolResult (histId msg.id i) (jsonDumps (c.get "result" (.obj [])))
        [{ role := "assistant", content := .blocks assistant_content },
         { role := "user", content := .blocks tool_result_content }]
    else
      [{ role := msg.role, content := .text msg.content }]
  | none => [{ role := msg.role, content := .text msg.content }]

/-- Embedding of `AgentMemory.get_chat_history` (memory.py lines 19-77): fetch the
project's messages through `ChatRepository.list_by_project` and accumulate the
reconstruction of each in order. -/
def getChatHistory (db : DB) (project_id : Nat) (limit : Nat) : List LMsg :=
  (chatListByProject db project_id limit).flatMap reconstructMsg

/-- Embedding of `AgentMemory.save_message` (memory.py lines 79-101): append one row. -/
def saveMessage (db : DB) (project_id : Nat) (role content : String)
    (tool_calls : Option Json := none) : DB :=
  (chatRepoCreate db project_id role content tool_calls none).2

/-! ## Task and plan tools (backend/app/agent/tools/task_tools.py and
plan_tools.py) -/

/-- Python `str.lower()` on the strings the tools compare: per-character
lowering over the character list (structurally recursive, unlike
`String.toLower`'s position loop, and equal to it on these strings). -/
def strLower (s : String) : String := ⟨s.data.map Char.toLower⟩

/-- An ASCII whitespace character, the class `str.strip()` removes on the
titles involved. -/
def isAsciiSpace (c : Char) : Bool := c == ' ' || c == '\t' || c == '\n' || c == '\r'

/-- Python `str.strip()`: drop leading and trailing whitespace. -/
def strTrim (s : String) : String :=
  ⟨((s.data.dropWhile isAsciiSpace).reverse.dropWhile isAsciiSpace).reverse⟩

/-- One entry of the `tasks`/`steps` array arguments: the JSON schema requires
`title` and leaves the rest optional (`t.get(...)` reads). -/
structure TaskDict where
  title : String
  description : Option String := none
  priority : Option String := none
  assignee : Option String := none
  due_date : Option String := none
deriving DecidableEq

/-- An optional string as a JSON value (Python `None` → JSON null). -/
def optStr : Option String → Json
  | some s => .str s
  | none => .null

/-- A list of strings as a JSON array. -/
def strArr (xs : List String) : Json := .arr (xs.map .str)

/-- Model of `datetime.date.fromisoformat` restricted to the `YYYY-MM-DD` form the
tools feed it: digit/shape and coarse range checks; a parsed date is kept in
its ISO string form.  (`ValueError` is modelled by `none`.) -/
def dateFromIso (s : String) : Option String :=
  match s.toList with
  | [y1, y2, y3, y4, '-', m1, m2, '-', d1, d2] =>
    if ([y1, y2, y3, y4, m1, m2, d1, d2].all (·.isDigit)) then
      let mo := (m1.toNat - 48) * 10 + (m2.toNat - 48)
      let da := (d1.toNat - 48) * 10 + (d2.toNat - 48)
      if 1 ≤ mo && mo ≤ 12 && 1 ≤ da && da ≤ 31 then some s else none
    else none
  | _ => none

/-- The due-date handling shared by the confirm tools (task_tools.py lines
383-388, plan_tools.py lines 200-205): `if t.get("due_date"):` then
`date.fromisoformat` with `ValueError` swallowed. -/
def parseDueDate : Option String → Option String
  | some s => if s ≠ "" then dateFromIso s else none
  | none => none

/-- Embedding of `ProposeTasksTool.execute` (task_tools.py lines 289-305): builds the
preview list — each entry tagged `temp_id = f"t\x7bi + 1\x7d"` — and returns
it with the proposal message.  No repository call occurs; the store is
returned unchanged. -/
def proposeTasksExecute (tasks : List TaskDict) (db : DB) : Json × DB :=
  let proposed := tasks.mapIdx fun i t =>
    Json.obj [("temp_id", .str ("t" ++ toString (i + 1))),
      ("title", .str t.title),
      ("description", optStr t.description),
      ("priority", .str (t.priority.getD "medium")),
      ("assignee", optStr t.assignee),
      ("due_date", optStr t.due_date)]
  (Json.obj [("type", .str "proposal"),
    ("message", .str ("Proposed " ++ toString proposed.length ++ " task(s) for your approval. These tasks have NOT been created yet. When the user approves, you MUST call confirm_proposed_tasks with these exact tasks to actually create them.")),
    ("tasks", .arr proposed)], db)

/-- Embedding of `ProposePlanTool.execute` (plan_tools.py lines 82-102): builds the ordered
step preview — each entry tagged `step_number = i + 1` — and returns it with
the goal and message.  No repository call occurs; the store is returned
unchanged. -/
def proposePlanExecute (goal : String) (steps : List TaskDict) (db : DB) : Json × DB :=
  let proposed_steps := steps.mapIdx fun i step =>
    Json.obj [("step_number", .num (i + 1 : Nat)),
      ("title", .str step.title),
      ("description", optStr step.description),
      ("priority", .str (step.priority.getD "medium")),
      ("assignee", optStr step.assignee),
      ("due_date", optStr step.due_date)]
  (Json.obj [("type", .str "plan_proposal"),
    ("message", .str ("Proposed a " ++ toString proposed_steps.length ++ "-step plan for: " ++ goal ++ ". Review and approve to create these as tasks.")),
    ("goal", .str goal),
    ("steps", .arr proposed_steps)], db)

/-- The brief task JSON used in `task_created` events (task_tools.py lines
404-409). -/
def taskBriefJson (t : Task) : Json :=
  Json.obj [("id", .str (toString t.id)), ("title", .str t.title),
    ("priority", .str t.priority), ("status", .str t.status)]

/-- The per-task loop of `ConfirmProposedTasksTool.execute_streaming`
(task_tools.py lines 377-411): skip a trimmed title already present
(case-insensitively) in the pre-loaded titles, otherwise create the row and
emit a `task_created` event whose progress counts the creations so far out of
`total - len(skipped)`.  Returns the events, the created rows, the skipped
titles and the final store. -/
def confirmTasksGo (pid : Nat) (existingTitles : List String) (total : Nat) :
    List TaskDict → DB → List Task → List String →
    List Json × List Task × List String × DB
  | [], db, created, skipped => ([], created, skipped, db)
  | t :: rest, db, created, skipped =>
    let title := strTrim t.title
    if existingTitles.contains (strLower title) then
      confirmTasksGo pid existingTitles total rest db created (skipped ++ [title])
    else
      let data : TaskCreate :=
        { title := title
          description := t.description
          priority := some (t.priority.getD "medium")
          assignee := t.assignee
          due_date := parseDueDate t.due_date }
      let (task, db1) := taskRepoCreate db pid data
      let ev := Json.obj [("type", .str "task_created"),
        ("task", taskBriefJson task),
        ("progress", .obj [("current", .num (created.length + 1 : Nat)),
          ("total", .num (total - skipped.length : Nat))])]
      let (evs, c, s, db2) :=
        confirmTasksGo pid existingTitles total rest db1 (created ++ [task]) skipped
      (ev :: evs, c, s, db2)

/-- Embedding of `ConfirmProposedTasksTool.execute_streaming` (task_tools.py lines
364-442): load the project's existing titles (trimmed, lowercased), run the
per-task loop, then report — `success: false` with count 0 when nothing was
created and something was skipped, otherwise `success: true` with the
created/skipped partition.  The final `result` event's data is the middle
component. -/
def confirmProposedTasksStreaming (pid : Nat) (tasks : List TaskDict) (db : DB) :
    List Json × Json × DB :=
  let existing := taskListByProject db pid
  let existingTitles := existing.map fun t => strLower (strTrim t.title)
  let (evs, created, skipped, db') :=
    confirmTasksGo pid existingTitles tasks.length tasks db [] []
  if created.isEmpty && !skipped.isEmpty then
    (evs, Json.obj [("success", .bool false),
      ("message", .str ("All " ++ toString skipped.length ++ " task(s) already exist — nothing created.")),
      ("skipped", strArr skipped), ("count", .num 0), ("tasks", .arr [])], db')
  else
    let msg := "Created " ++ toString created.length ++ " task(s) successfully."
      ++ (if !skipped.isEmpty then
            " Skipped " ++ toString skipped.length ++ " duplicate(s): "
              ++ String.intercalate ", " skipped ++ "."
          else "")
    (evs, Json.obj [("success", .bool true), ("message", .str msg),
      ("count", .num (created.length : Nat)),
      ("tasks", .arr (created.map fun t =>
        Json.obj [("id", .str (toString t.id)), ("title", .str t.title),
          ("priority", .str t.priority)])),
      ("skipped", if skipped.isEmpty then .null else strArr skipped)], db')

/-- The pre-loaded duplicate-guard set of `confirm_proposed_tasks`
(task_tools.py lines 370-371): the project's task titles, trimmed and
lowercased. -/
def existingLowerTitles (db : DB) (pid : Nat) : List String :=
  (taskListByProject db pid).map fun t => strLower (strTrim t.title)

/-- The proposed tasks whose trimmed title is not already present
(case-insensitively) — the ones `confirm_proposed_tasks` creates. -/
def freshOf (db : DB) (pid : Nat) (tasks : List TaskDict) : List TaskDict :=
  tasks.filter fun t => !(existingLowerTitles db pid).contains (strLower (strTrim t.title))

/-- The proposed tasks whose trimmed title is already present — the ones
`confirm_proposed_tasks` skips. -/
def dupsOf (db : DB) (pid : Nat) (tasks : List TaskDict) : List TaskDict :=
  tasks.filter fun t => (existingLowerTitles db pid).contains (strLower (strTrim t.title))

/-- Message of the `AttributeError` raised at plan_tools.py line 187:
`TaskRepository` (task_repo.py lines 13-106) defines no `list_subtasks`
method, so the attribute lookup on the repository object fails. -/
def listSubtasksError : String :=
  "\x27TaskRepository\x27 object has no attribute \x27list_subtasks\x27"

/-- Embedding of `ConfirmPlanTool.execute_streaming` (plan_tools.py lines 165-261): create
and commit the parent task (title = goal, description = `"Plan: " + goal`,
priority "high"), yield the `plan_started` event, then evaluate
`task_repo.list_subtasks(parent_task.id)` — an attribute that does not exist
on `TaskRepository`, so Python raises `AttributeError` here, before any
duplicate check, any step creation and the Plan-row insertion.  The result is
the events yielded so far, the raised error, and the store with the parent
task committed. -/
def confirmPlanStreaming (pid : Nat) (goal : String) (steps : List TaskDict)
    (db : DB) : List Json × Except String Json × DB :=
  let parent_data : TaskCreate :=
    { title := goal
      description := some ("Plan: " ++ goal)
      priority := some "high" }
  let (parent_task, db1) := taskRepoCreate db pid parent_data
  let ev := Json.obj [("type", .str "plan_started"),
    ("plan_goal", .str goal),
    ("parent_task_id", .str (toString parent_task.id)),
    ("total_steps", .num (steps.length : Nat))]
  ([ev], Except.error listSubtasksError, db1)

/-! ## The agent loop (backend/app/agent/core.py)

The LLM is a collaborator: `run` models it as a function from the message
list to the normalized response, `run_streaming` as a function to the list of
text deltas plus the optional final result (absent modelling a stream that
ended without a `result` event).  A tool of the registry is modelled by its
name, streaming flag and execution functions; an execution that raises is an
`Except.error` carrying `str(exception)`, paired with the store as mutated up
to the raise. -/

/-- One tool call of a normalized LLM response: `{id, name, arguments}`. -/
structure ToolCall where
  id : String
  name : String
  arguments : Json

/-- A normalized LLM response (providers/base.py contract). -/
structure LLMResponse where
  content : String
  tool_calls : List ToolCall
  stop_reason : String

/-- A registered tool as the loop sees it (tools/base.py contract):
`execute_streaming` returns the intermediate events it yielded and either the
final `result` event's data or the exception it raised. -/
structure ATool where
  name : String
  supports_streaming : Bool := false
  execute : Json → DB → Except String Json × DB
  execute_streaming : Json → DB → List Json × Except String Json × DB

/-- Record `{"tool_use_id", "result"}` — the protocol-continuation record
(core.py lines 135-138). -/
structure ToolResultRec where
  tool_use_id : String
  result : Json

/-- Record `{"tool_name", "arguments", "result"}` — the externally visible
audit-trail record (core.py lines 141-145). -/
structure ToolCallLog where
  tool_name : String
  arguments : Json
  result : Json

/-- A log entry as persisted inside the assistant message's `tool_calls`
column. -/
def logEntryJson (l : ToolCallLog) : Json :=
  .obj [("tool_name", .str l.tool_name), ("arguments", l.arguments),
    ("result", l.result)]

/-- Payload `tool_calls=\x7b"calls": all_tool_calls\x7d if all_tool_calls else None`
(core.py line 111). -/
def toolCallsPayload (log : List ToolCallLog) : Option Json :=
  if log.isEmpty then none
  else some (.obj [("calls", .arr (log.map logEntryJson))])

/-- The value of `run`/`run_streaming`'s terminal response:
`\x7bmessage, tool_calls\x7d` with `tool_calls = None` when none accumulated. -/
structure RunResult where
  message : String
  tool_calls : Option (List ToolCallLog)

/-- The fixed degraded-termination message (core.py lines 174 and 330). -/
def apologyMessage : String :=
  "I apologize, but I wasn\x27t able to complete the request. Please try again."

/-- Registry lookup: `self.tools.get(tool_name)` (registry.py line 15). -/
def registryGet (reg : List ATool) (tname : String) : Option ATool :=
  reg.find? fun t => t.name == tname

/-- One tool dispatch of `Agent.run` (core.py lines 126-133): unknown names
become `\x7b"error": "Unknown tool: <name>"\x7d`, a raising `execute` becomes
`\x7b"error": str(e)\x7d` with the mutations kept, and a normal result passes
through. -/
def runDispatch (reg : List ATool) (tc : ToolCall) (db : DB) : Json × DB :=
  match registryGet reg tc.name with
  | some t =>
    let (r, db') := t.execute tc.arguments db
    (match r with
      | .ok v => v
      | .error e => Json.obj [("error", .str e)], db')
  | none => (Json.obj [("error", .str ("Unknown tool: " ++ tc.name))], db)

/-- The tool-call loop of one `run` iteration (core.py lines 119-145):
dispatch each call in the order the LLM returned them, threading the store,
and collect the protocol records and audit log in that same order. -/
def processToolCalls (reg : List ATool) :
    List ToolCall → DB → List ToolResultRec × List ToolCallLog × DB
  | [], db => ([], [], db)
  | tc :: rest, db =>
    let (r, db1) := runDispatch reg tc db
    let (trs, logs, db2) := processToolCalls reg rest db1
    ({ tool_use_id := tc.id, result := r } :: trs,
     { tool_name := tc.name, arguments := tc.arguments, result := r } :: logs,
     db2)

/-- The assistant turn appended after tool execution (core.py lines 147-159):
the response text, if any, then one `tool_use` block per call. -/
def assistantTurn (resp : LLMResponse) : LMsg :=
  { role := "assistant"
    content := .blocks
      ((if resp.content ≠ "" then [Block.text resp.content] else [])
        ++ resp.tool_calls.map fun tc => Block.toolUse tc.id tc.name tc.arguments) }

/-- The user turn carrying the tool results (core.py lines 161-170), each
result serialized with `json.dumps`. -/
def toolResultTurn (trs : List ToolResultRec) : LMsg :=
  { role := "user"
    content := .blocks (trs.map fun tr =>
      Block.toolResult tr.tool_use_id (jsonDumps tr.result)) }

/-- The `while iteration < max_iterations` loop of `Agent.run` (core.py lines
93-176), as recursion on the remaining iterations; the last component counts
the LLM calls made.  A response without tool calls persists the assistant
message and returns; exhausted fuel returns the apology with the accumulated
log, without persisting (the source's ceiling path performs no save). -/
def agentLoop (llm : List LMsg → LLMResponse) (reg : List ATool) (pid : Nat) :
    Nat → List LMsg → List ToolCallLog → DB → RunResult × DB × Nat
  | 0, _msgs, log, db =>
    ({ message := apologyMessage
       tool_calls := if log.isEmpty then none else some log }, db, 0)
  | fuel + 1, msgs, log, db =>
    let resp := llm msgs
    if resp.tool_calls.isEmpty then
      let db' := saveMessage db pid "assistant" resp.content (toolCallsPayload log)
      ({ message := resp.content
         tool_calls := if log.isEmpty then none else some log }, db', 1)
    else
      let (trs, logs, db1) := processToolCalls reg resp.tool_calls db
      let msgs' := msgs ++ [assistantTurn resp, toolResultTurn trs]
      let (res, db2, n) := agentLoop llm reg pid fuel msgs' (log ++ logs) db1
      (res, db2, n + 1)

/-- Check `messages[-1]["content"] != user_message` under the guard of core.py line
80: only a plain-text tail equal to the new message suppresses the append
(a reconstructed block-list content never compares equal to a string). -/
def tailEndsWith (msgs : List LMsg) (u : String) : Bool :=
  match msgs.getLast? with
  | some m =>
    match m.content with
    | .text s => s == u
    | .blocks _ => false
  | none => false

/-- Embedding of `Agent.run` (core.py lines 62-176): save the user message, load the last
`limit=10` history window reconstructed to multi-part form, append the new
user message unless the tail already ends with identical content, then run
the loop with `max_iterations = 10`.  (The tool-definition list is read once
per run; the registry is fixed here, so that read is implicit.) -/
def run (llm : List LMsg → LLMResponse) (reg : List ATool) (pid : Nat)
    (db : DB) (user_message : String) : RunResult × DB × Nat :=
  let db0 := saveMessage db pid "user" user_message none
  let history := getChatHistory db0 pid 10
  let msgs :=
    if !tailEndsWith history user_message then
      history ++ [{ role := "user", content := .text user_message }]
    else history
  agentLoop llm reg pid 10 msgs [] db0

/-- The events `run_streaming` yields (core.py lines 182-332). -/
inductive SEvent where
  | thinking (stage : String) (iteration : Nat) (has_tool_calls : Bool)
      (last_tool : Option String) : SEvent
  | textDelta (text : String) : SEvent
  | toolStart (tool_name : String) (arguments : Json) : SEvent
  | toolEvent (tool_name : String) (ev : Json) : SEvent
  | toolEnd (tool_name : String) (result : Json) : SEvent
  | response (message : String) (tool_calls : Option (List ToolCallLog)) : SEvent

/-- One tool dispatch of `Agent.run_streaming` (core.py lines 266-283): a
streaming-capable tool runs `execute_streaming`, its intermediate events
forwarded with the tool name attached and its final result (or the error of a
raise) captured; other tools run `execute`; unknown names produce the
`Unknown tool` error without events. -/
def streamDispatch (reg : List ATool) (tc : ToolCall) (db : DB) :
    List SEvent × Json × DB :=
  match registryGet reg tc.name with
  | some t =>
    if t.supports_streaming then
      let (evs, r, db') := t.execute_streaming tc.arguments db
      (evs.map (SEvent.toolEvent tc.name),
       match r with
        | .ok v => v
        | .error e => Json.obj [("error", .str e)], db')
    else
      let (r, db') := t.execute tc.arguments db
      ([],
       match r with
        | .ok v => v
        | .error e => Json.obj [("error", .str e)], db')
  | none => ([], Json.obj [("error", .str ("Unknown tool: " ++ tc.name))], db)

/-- The tool-call loop of one `run_streaming` iteration (core.py lines
253-301): per call, `tool_start`, the forwarded tool events, `tool_end` with
the captured result, then the next call against the mutated store. -/
def processToolCallsS (reg : List ATool) :
    List ToolCall → DB → List SEvent × List ToolResultRec × List ToolCallLog × DB
  | [], db => ([], [], [], db)
  | tc :: rest, db =>
    let (evs, r, db1) := streamDispatch reg tc db
    let (evs', trs, logs, db2) := processToolCallsS reg rest db1
    (SEvent.toolStart tc.name tc.arguments ::
       (evs ++ (SEvent.toolEnd tc.name r :: evs')),
     { tool_use_id := tc.id, result := r } :: trs,
     { tool_name := tc.name, arguments := tc.arguments, result := r } :: logs,
     db2)

/-- The `while` loop of `Agent.run_streaming` (core.py lines 208-332):
`done` counts the iterations already run (the `thinking` event carries
`done + 1`); a missing LLM `result` event falls back to the empty error
response (line 234); exhausted fuel yields the apology `response` event. -/
def agentLoopS (llmS : List LMsg → List String × Option LLMResponse)
    (reg : List ATool) (pid : Nat) :
    Nat → Nat → List LMsg → List ToolCallLog → DB → List SEvent × DB × Nat
  | 0, _done, _msgs, log, db =>
    ([SEvent.response apologyMessage (if log.isEmpty then none else some log)],
     db, 0)
  | fuel + 1, done, msgs, log, db =>
    let thinkingEv := SEvent.thinking "calling_llm" (done + 1) (!log.isEmpty)
      (match log.getLast? with | some l => some l.tool_name | none => none)
    let (deltas, respO) := llmS msgs
    let deltaEvents := deltas.map SEvent.textDelta
    let resp := respO.getD { content := "", tool_calls := [], stop_reason := "error" }
    if resp.tool_calls.isEmpty then
      let db' := saveMessage db pid "assistant" resp.content (toolCallsPayload log)
      (thinkingEv :: deltaEvents
         ++ [SEvent.response resp.content (if log.isEmpty then none else some log)],
       db', 1)
    else
      let (tevs, trs, logs, db1) := processToolCallsS reg resp.tool_calls db
      let msgs' := msgs ++ [assistantTurn resp, toolResultTurn trs]
      let (evs, db2, n) := agentLoopS llmS reg pid fuel (done + 1) msgs' (log ++ logs) db1
      (thinkingEv :: deltaEvents ++ tevs ++ evs, db2, n + 1)

/-- Embedding of `Agent.run_streaming` (core.py lines 178-332): same setup as `run`, then
the streaming loop with `max_iterations = 10`. -/
def runStreaming (llmS : List LMsg → List String × Option LLMResponse)
    (reg : List ATool) (pid : Nat) (db : DB) (user_message : String) :
    List SEvent × DB × Nat :=
  let db0 := saveMessage db pid "user" user_message none
  let history := getChatHistory db0 pid 10
  let msgs :=
    if !tailEndsWith history user_message then
      history ++ [{ role := "user", content := .text user_message }]
    else history
  agentLoopS llmS reg pid 10 0 msgs [] db0

/-! ## Provider retry (backend/app/services/providers/anthropic_provider.py) -/

/-- A provider API failure: `APIStatusError` with its status code, or
`APIConnectionError`. -/
inductive ApiError where
  | statusError (status_code : Nat) : ApiError
  | connectionError : ApiError
deriving DecidableEq

/-- One content block of a raw Anthropic response. -/
inductive RespBlock where
  | text (txt : String) : RespBlock
  | toolUse (tid tname : String) (input : Json) : RespBlock

/-- A raw Anthropic response. -/
structure ApiResponse where
  content : List RespBlock
  stop_reason : String

/-- Constant `MAX_RETRIES = 3` (anthropic_provider.py line 14). -/
def MAX_RETRIES : Nat := 3

/-- Constant `INITIAL_BACKOFF = 2` (line 15). -/
def INITIAL_BACKOFF : Nat := 2

/-- Constant `RETRYABLE_STATUS_CODES = \x7b429, 529, 503, 500\x7d` (line 16). -/
def retryableStatusCodes : List Nat := [429, 529, 503, 500]

/-- Embedding of `AnthropicProvider._is_retryable` (lines 39-44). -/
def isRetryable : ApiError → Bool
  | .connectionError => true
  | .statusError c => retryableStatusCodes.contains c

/-- The backoff slept by `_retry_delay(attempt)` (line 35):
`INITIAL_BACKOFF * (2 ** attempt)` seconds — doubling per attempt. -/
def retryDelay (attempt : Nat) : Nat := INITIAL_BACKOFF * 2 ^ attempt

/-- The normalization of lines 68-82: concatenate the text blocks into
`content` and collect the `tool_use` blocks as `\x7bid, name, arguments\x7d`
in block order. -/
def normalizeBlocks : List RespBlock → String × List ToolCall
  | [] => ("", [])
  | b :: rest =>
    let (s, tcs) := normalizeBlocks rest
    match b with
    | .text t => (t ++ s, tcs)
    | .toolUse i n args => (s, { id := i, name := n, arguments := args } :: tcs)

/-- A raw response normalized to the canonical shape. -/
def normalizeResponse (r : ApiResponse) : LLMResponse :=
  let (c, tcs) := normalizeBlocks r.content
  { content := c, tool_calls := tcs, stop_reason := r.stop_reason }

/-- The `for attempt in range(MAX_RETRIES)` body of `AnthropicProvider.chat`
(lines 64-90), with the underlying API call modelled as a function from the
attempt index to its outcome.  `fuel` is the number of loop iterations left
(`MAX_RETRIES - attempt`); the fuel-0 case corresponds to the
`raise last_error` after the loop, unreachable because every iteration
returns, raises or retries with `attempt < MAX_RETRIES - 1`.  The second
component records the backoff delays slept, in order. -/
def providerChatGo (api : Nat → Except ApiError ApiResponse) :
    Nat → Nat → List Nat → Except ApiError LLMResponse × List Nat
  | 0, _attempt, delays => (.error .connectionError, delays)
  | fuel + 1, attempt, delays =>
    match api attempt with
    | .ok resp => (.ok (normalizeResponse resp), delays)
    | .error e =>
      if isRetryable e && attempt < MAX_RETRIES - 1 then
        providerChatGo api fuel (attempt + 1) (delays ++ [retryDelay attempt])
      else
        (.error e, delays)

/-- Embedding of `AnthropicProvider.chat` (lines 46-90): up to `MAX_RETRIES` attempts from
attempt 0 with no delay slept yet. -/
def providerChat (api : Nat → Except ApiError ApiResponse) :
    Except ApiError LLMResponse × List Nat :=
  providerChatGo api MAX_RETRIES 0 []

/-! ## Fixtures for the claim witnesses -/

/-- A provider call script failing with HTTP 429 on attempts 0 and 1 and
succeeding on attempt 2. -/
def apiThirdTry : Nat → Except ApiError ApiResponse := fun n =>
  if n = 2 then .ok { content := [.text "done"], stop_reason := "end_turn" }
  else .error (.statusError 429)

/-- A provider call script failing with HTTP 401 (non-retryable) at once. -/
def apiAuthFailure : Nat → Except ApiError ApiResponse :=
  fun _ => .error (.statusError 401)

/-- The three steps of the spec's plan-ordering example. -/
def buildAuthSteps : List TaskDict :=
  [{ title := "Design schema" }, { title := "Implement backend" },
   { title := "Add UI" }]

/-- A store holding eleven user messages `m0 … m10` of project 0, `m10` the
most recently persisted one. -/
def elevenMsgDB : DB :=
  (List.range 11).foldl (fun db i => saveMessage db 0 "user" ("m" ++ toString i)) DB.empty

/-- A persisted assistant message recording one `propose_tasks` call. -/
def storedAsstMsg : ChatMessage :=
  { id := 7, project_id := 0, role := "assistant", content := "Here you go"
    tool_calls := some (.obj [("calls", .arr
      [.obj [("tool_name", .str "propose_tasks"),
        ("arguments", .obj [("tasks", .arr [])]),
        ("result", .obj [("type", .str "proposal")])]])]) }

/-- A tool whose execution always raises. -/
def boomTool : ATool :=
  { name := "boom"
    execute := fun _ db => (.error "boom failed", db)
    execute_streaming := fun _ db => ([], .error "boom failed", db) }

/-- A store holding one task titled "Fix login bug" in project 0. -/
def dbWithFixLogin : DB := (taskRepoCreate DB.empty 0 { title := "Fix login bug" }).2

/-- The spec example's confirm request with one duplicate and one new task. -/
def confirmBoth : List TaskDict :=
  [{ title := "Fix login bug" }, { title := "Add dark mode" }]

/-- The spec example's all-duplicate confirm request. -/
def confirmDupOnly : List TaskDict := [{ title := "Fix login bug" }]

/-- An LLM script that always requests one tool call. -/
def alwaysToolLlm : List LMsg → LLMResponse := fun _ =>
  { content := "", tool_calls := [{ id := "1", name := "nope", arguments := .obj [] }],
    stop_reason := "tool_use" }

/-- The streaming form of `alwaysToolLlm`, with no text deltas. -/
def alwaysToolLlmS : List LMsg → List String × Option LLMResponse := fun ms =>
  ([], some (alwaysToolLlm ms))

/-! ## Claims -/

/-- Claim C9: the provider chat call retries a transient (retryable-status or
connection) error up to 3 total attempts with exponential backoff doubling per
attempt — two retryable failures followed by a success return the normalized
successful result after exactly the two delays 2 s and 4 s; a non-retryable
error is raised on the first attempt with zero delays; and when all three
attempts fail retryably, the last error is propagated unchanged after the same
two delays. -/
theorem provider_chat_retry_backoff
    (api : Nat → Except ApiError ApiResponse) (r : ApiResponse)
    (e0 e1 e2 : ApiError) :
    (isRetryable e0 = true → isRetryable e1 = true →
      api 0 = .error e0 → api 1 = .error e1 → api 2 = .ok r →
      providerChat api = (.ok (normalizeResponse r), [retryDelay 0, retryDelay 1])
        ∧ retryDelay 0 = 2 ∧ retryDelay 1 = 2 * retryDelay 0)
    ∧ (isRetryable e0 = false → api 0 = .error e0 →
      providerChat api = (.error e0, []))
    ∧ (isRetryable e0 = true → isRetryable e1 = true → isRetryable e2 = true →
      api 0 = .error e0 → api 1 = .error e1 → api 2 = .error e2 →
      providerChat api = (.error e2, [retryDelay 0, retryDelay 1])) := by
  refine ⟨?_, ?_, ?_⟩
  · intro h0 h1 ha0 ha1 ha2
    refine ⟨?_, rfl, rfl⟩
    simp [providerChat, providerChatGo, MAX_RETRIES, ha0, ha1, ha2, h0, h1]
  · intro h0 ha0
    simp [providerChat, providerChatGo, MAX_RETRIES, ha0, h0]
  · intro h0 h1 h2 ha0 ha1 ha2
    simp [providerChat, providerChatGo, MAX_RETRIES, ha0, ha1, ha2, h0, h1, h2]

/-- Witness for `provider_chat_retry_backoff` at the concrete scripts
`apiThirdTry` and `apiAuthFailure`. -/
theorem provider_chat_retry_backoff_witness :
    providerChat apiThirdTry
      = (.ok (normalizeResponse { content := [.text "done"], stop_reason := "end_turn" }), [2, 4])
    ∧ providerChat apiAuthFailure = (.error (.statusError 401), []) := by
  have h := provider_chat_retry_backoff apiThirdTry
    { content := [.text "done"], stop_reason := "end_turn" }
    (.statusError 429) (.statusError 429) (.statusError 429)
  have h' := provider_chat_retry_backoff apiAuthFailure
    { content := [.text "done"], stop_reason := "end_turn" }
    (.statusError 401) (.statusError 401) (.statusError 401)
  have h1 := (h.1 (by decide) (by decide) rfl rfl rfl).1
  have h2 := h'.2.1 (by decide) rfl
  exact ⟨by rw [h1]; rfl, h2⟩

/-- Claim C10 (implicit): `confirm_plan` creates and commits the parent task
(title = goal, priority "high", no parent) and emits `plan_started` before any
duplicate check or step creation; the invocation then fails, yet the parent
row remains persisted and no Plan row exists — an error result coexists with
the newly created parent task, so `confirm_plan` is not atomic. -/
theorem confirm_plan_parent_committed_before_failure
    (pid : Nat) (goal : String) (steps : List TaskDict) (db : DB) :
    ∃ parent : Task,
      (confirmPlanStreaming pid goal steps db).2.2.tasks = db.tasks ++ [parent]
      ∧ parent.title = goal ∧ parent.priority = "high"
      ∧ parent.parent_task_id = none ∧ parent.project_id = pid
      ∧ (((confirmPlanStreaming pid goal steps db).1.headD .null).get "type" .null
          = .str "plan_started")
      ∧ (∃ e, (confirmPlanStreaming pid goal steps db).2.1 = .error e)
      ∧ (confirmPlanStreaming pid goal steps db).2.2.plans = db.plans := by
  refine ⟨⟨db.nextId, pid, none, goal, some ("Plan: " ++ goal), "todo", "high",
    none, none, none⟩, ?_, rfl, rfl, rfl, rfl, rfl, ⟨listSubtasksError, rfl⟩, rfl⟩
  simp [confirmPlanStreaming, taskRepoCreate]

/-- Claim C1 (code bug evaluation): at the spec's own example input,
`confirm_plan` raises `AttributeError` — `TaskRepository` has no
`list_subtasks` method (plan_tools.py line 187) — so only the parent task is
persisted: no subtask rows, no Plan row, and no final result event carrying a
`plan_id` ever exists. -/
theorem confirm_plan_fails_on_build_auth :
    (confirmPlanStreaming 0 "Build auth" buildAuthSteps DB.empty).2.1
      = .error listSubtasksError
    ∧ ((confirmPlanStreaming 0 "Build auth" buildAuthSteps DB.empty).2.2).tasks.map (·.title)
      = ["Build auth"]
    ∧ ((confirmPlanStreaming 0 "Build auth" buildAuthSteps DB.empty).2.2).tasks.filter
        (fun t => t.parent_task_id.isSome) = []
    ∧ ((confirmPlanStreaming 0 "Build auth" buildAuthSteps DB.empty).2.2).plans = [] := by
  refine ⟨rfl, rfl, rfl, rfl⟩

/-- Claim C4 (code bug evaluation): `get_chat_history` does not return the
most recent N messages — `ChatRepository.list_by_project` orders ascending and
then limits, so with eleven persisted messages and `limit = 10` the window is
the OLDEST ten: `m10`, the newest message, is absent and the reconstructed
tail does not end with it (the situation `run` is in right after saving the
new user message of a long conversation). -/
theorem chat_history_returns_oldest_window :
    (chatListByProject elevenMsgDB 0 10).map (·.content)
      = ["m0", "m1", "m2", "m3", "m4", "m5", "m6", "m7", "m8", "m9"]
    ∧ elevenMsgDB.msgs.getLast?.map (·.content) = some "m10"
    ∧ (elevenMsgDB.msgs.filter (fun m => m.project_id == 0)).length = 11
    ∧ tailEndsWith (getChatHistory elevenMsgDB 0 10) "m10" = false := by
  refine ⟨rfl, rfl, rfl, rfl⟩

/-- Mapping a projection over an index-built list yields the pure index
image. -/
theorem mapIdx_project {α β γ : Type} (l : List α) (f : Nat → α → β)
    (g : β → γ) (h : Nat → γ) (hw : ∀ i a, g (f i a) = h i) :
    (l.mapIdx f).map g = (List.range l.length).map h := by
  induction l generalizing f h with
  | nil => rfl
  | cons a tl ih =>
    rw [List.mapIdx_cons, List.length_cons, List.range_succ_eq_map]
    simp only [List.map_cons, List.map_map, hw]
    rw [ih (fun i => f (i + 1)) (fun i => h (i + 1)) (fun i a => hw (i + 1) a)]
    rfl

/-- Claim C8: `propose_tasks` and `propose_plan` perform zero writes — on any
input and store they return the store untouched (tasks, plans and messages
identical, so repeating them changes nothing) — and produce only a structured
preview: one entry per input, the task entries tagged `temp_id = "t1", "t2",
…` and the plan steps tagged `step_number = 1, 2, …` in order, together with
an explanatory message. -/
theorem propose_tools_pure_preview (tasks : List TaskDict) (goal : String)
    (steps : List TaskDict) (db : DB) :
    (proposeTasksExecute tasks db).2 = db
    ∧ (proposePlanExecute goal steps db).2 = db
    ∧ (proposeTasksExecute tasks ((proposeTasksExecute tasks db).2)).2 = db
    ∧ ((proposeTasksExecute tasks db).1.get "tasks" .null).asArr.length = tasks.length
    ∧ ((proposeTasksExecute tasks db).1.get "tasks" .null).asArr.map
        (fun j => j.get "temp_id" .null)
      = (List.range tasks.length).map (fun i => Json.str ("t" ++ toString (i + 1)))
    ∧ ((proposePlanExecute goal steps db).1.get "steps" .null).asArr.map
        (fun j => j.get "step_number" .null)
      = (List.range steps.length).map (fun i => Json.num (i + 1 : Nat))
    ∧ ((proposeTasksExecute tasks db).1.get "message" .null).asStr ""
      = "Proposed " ++ toString tasks.length
        ++ " task(s) for your approval. These tasks have NOT been created yet. When the user approves, you MUST call confirm_proposed_tasks with these exact tasks to actually create them."
    ∧ ((proposePlanExecute goal steps db).1.get "goal" .null) = .str goal := by
  refine ⟨rfl, rfl, rfl, ?_, ?_, ?_, ?_, rfl⟩
  · show (Json.arr _).asArr.length = _
    simp [Json.asArr]
  · show (Json.arr _).asArr.map _ = _
    simp only [Json.asArr]
    exact mapIdx_project _ _ _ _ fun i a => rfl
  · show (Json.arr _).asArr.map _ = _
    simp only [Json.asArr]
    exact mapIdx_project _ _ _ _ fun i a => rfl
  · show (Json.str _).asStr "" = _
    simp [Json.asStr, proposeTasksExecute]

/-- Claim C5: a persisted assistant message carrying a non-empty recorded
call list (the shape `save_message` stores: `\x7b"calls": [...]\x7d`) is
reconstructed as exactly one assistant turn — the original text when
non-empty, then one `tool_use` block per call with the synthesized id
`histId` — immediately followed by one user turn holding one `tool_result`
block per call whose `tool_use_id` is the same synthesized id and whose
content is the `json.dumps` serialization of the recorded result; an
assistant message without tool calls, and any user message, passes through
unchanged; and `get_chat_history` is the in-order concatenation of these
per-message reconstructions over the loaded window. -/
theorem memory_reconstructs_tool_turns (db : DB) (pid limit : Nat)
    (m : ChatMessage) (c : Json) (cs : List Json)
    (hrole : m.role = "assistant")
    (hcalls : m.tool_calls = some (Json.obj [("calls", Json.arr (c :: cs))])) :
    reconstructMsg m =
      [{ role := "assistant"
         content := .blocks
          ((if m.content ≠ "" then [Block.text m.content] else [])
            ++ (c :: cs).mapIdx fun i tc =>
                Block.toolUse (histId m.id i)
                  ((tc.get "tool_name" (.str "unknown")).asStr "unknown")
                  (tc.get "arguments" (.obj []))) },
       { role := "user"
         content := .blocks
          ((c :: cs).mapIdx fun i tc =>
            Block.toolResult (histId m.id i)
              (jsonDumps (tc.get "result" (.obj [])))) }]
    ∧ (∀ m' : ChatMessage, m'.role = "user" →
        reconstructMsg m' = [{ role := m'.role, content := .text m'.content }])
    ∧ (∀ m' : ChatMessage, m'.tool_calls = none →
        reconstructMsg m' = [{ role := m'.role, content := .text m'.content }])
    ∧ getChatHistory db pid limit
        = (chatListByProject db pid limit).flatMap reconstructMsg := by
  refine ⟨?_, ?_, ?_, rfl⟩
  · rw [reconstructMsg, hcalls, hrole]
    simp [Json.truthy, Json.get, Json.asArr]
  · intro m' hrole'
    rw [reconstructMsg]
    cases htc : m'.tool_calls with
    | none => rfl
    | some tc => rw [hrole']; simp
  · intro m' htc
    rw [reconstructMsg, htc]

/-- Witness for `memory_reconstructs_tool_turns` at `storedAsstMsg`: the
reconstruction is one assistant turn followed by one user turn whose
`tool_result` block references the same synthesized id `hist_7_0`. -/
theorem memory_reconstructs_tool_turns_witness :
    reconstructMsg storedAsstMsg =
      [{ role := "assistant"
         content := .blocks
          [Block.text "Here you go",
           Block.toolUse "hist_7_0" "propose_tasks" (.obj [("tasks", .arr [])])] },
       { role := "user"
         content := .blocks
          [Block.toolResult "hist_7_0" "\x7b\"type\": \"proposal\"\x7d"] }] := by
  have h := (memory_reconstructs_tool_turns DB.empty 0 10 storedAsstMsg
    (.obj [("tool_name", .str "propose_tasks"),
      ("arguments", .obj [("tasks", .arr [])]),
      ("result", .obj [("type", .str "proposal")])]) [] rfl rfl).1
  rw [h]; rfl

/-- Claim C6: the loop never lets a tool exception escape — a name absent
from the registry is recorded as exactly `\x7b"error": "Unknown tool:
<name>"\x7d` (in both loops, with no tool events emitted), a raising
execution is recorded as `\x7b"error": str(e)\x7d` keeping the mutations made
before the raise, and in every case the result is appended as a normal tool
result while processing continues with the remaining calls. -/
theorem tool_errors_recovered (reg : List ATool) (tc : ToolCall)
    (rest : List ToolCall) (db : DB) :
    (registryGet reg tc.name = none →
      runDispatch reg tc db
        = (Json.obj [("error", .str ("Unknown tool: " ++ tc.name))], db)
      ∧ streamDispatch reg tc db
        = ([], Json.obj [("error", .str ("Unknown tool: " ++ tc.name))], db))
    ∧ (∀ t e db', registryGet reg tc.name = some t →
        t.execute tc.arguments db = (.error e, db') →
        runDispatch reg tc db = (Json.obj [("error", .str e)], db'))
    ∧ (∀ t e evs db', registryGet reg tc.name = some t →
        t.supports_streaming = true →
        t.execute_streaming tc.arguments db = (evs, .error e, db') →
        streamDispatch reg tc db
          = (evs.map (SEvent.toolEvent tc.name), Json.obj [("error", .str e)], db'))
    ∧ processToolCalls reg (tc :: rest) db
        = ((⟨tc.id, (runDispatch reg tc db).1⟩ : ToolResultRec)
             :: (processToolCalls reg rest (runDispatch reg tc db).2).1,
           (⟨tc.name, tc.arguments, (runDispatch reg tc db).1⟩ : ToolCallLog)
             :: (processToolCalls reg rest (runDispatch reg tc db).2).2.1,
           (processToolCalls reg rest (runDispatch reg tc db).2).2.2) := by
  refine ⟨fun h => ⟨?_, ?_⟩, fun t e db' hf hx => ?_, fun t e evs db' hf hs hx => ?_, rfl⟩
  · rw [runDispatch, h]
  · rw [streamDispatch, h]
  · simp [runDispatch, hf, hx]
  · simp [streamDispatch, hf, hs, hx]

/-- Witness for `tool_errors_recovered`: a one-tool registry, an unknown name
and a raising execution, both recovered into error results. -/
theorem tool_errors_recovered_witness :
    runDispatch [boomTool] { id := "1", name := "missing", arguments := .obj [] } DB.empty
      = (Json.obj [("error", .str "Unknown tool: missing")], DB.empty)
    ∧ runDispatch [boomTool] { id := "2", name := "boom", arguments := .obj [] } DB.empty
      = (Json.obj [("error", .str "boom failed")], DB.empty) := by
  have h := tool_errors_recovered [boomTool]
    { id := "1", name := "missing", arguments := .obj [] } [] DB.empty
  have h' := tool_errors_recovered [boomTool]
    { id := "2", name := "boom", arguments := .obj [] } [] DB.empty
  exact ⟨(h.1 rfl).1, h'.2.1 boomTool "boom failed" DB.empty rfl rfl⟩

/-- The tool-call loop of `run` distributes over concatenation: the later block
runs against the state the earlier block produced, and records/logs keep the
earlier block's entries first. -/
theorem processToolCalls_append (reg : List ATool) (xs ys : List ToolCall)
    (db : DB) :
    processToolCalls reg (xs ++ ys) db
      = ((processToolCalls reg xs db).1
           ++ (processToolCalls reg ys (processToolCalls reg xs db).2.2).1,
         (processToolCalls reg xs db).2.1
           ++ (processToolCalls reg ys (processToolCalls reg xs db).2.2).2.1,
         (processToolCalls reg ys (processToolCalls reg xs db).2.2).2.2) := by
  induction xs generalizing db with
  | nil => simp [processToolCalls]
  | cons a tl ih => simp [processToolCalls, ih]

/-- The audit log of `run`'s tool-call loop lists exactly the requested tool
names in request order. -/
theorem processToolCalls_names (reg : List ATool) (xs : List ToolCall)
    (db : DB) :
    (processToolCalls reg xs db).2.1.map (·.tool_name) = xs.map (·.name) := by
  induction xs generalizing db with
  | nil => rfl
  | cons a tl ih => simp [processToolCalls, ih]

/-- The tool-call loop of `run_streaming` distributes over concatenation, events
included. -/
theorem processToolCallsS_append (reg : List ATool) (xs ys : List ToolCall)
    (db : DB) :
    processToolCallsS reg (xs ++ ys) db
      = ((processToolCallsS reg xs db).1
           ++ (processToolCallsS reg ys (processToolCallsS reg xs db).2.2.2).1,
         (processToolCallsS reg xs db).2.1
           ++ (processToolCallsS reg ys (processToolCallsS reg xs db).2.2.2).2.1,
         (processToolCallsS reg xs db).2.2.1
           ++ (processToolCallsS reg ys (processToolCallsS reg xs db).2.2.2).2.2.1,
         (processToolCallsS reg ys (processToolCallsS reg xs db).2.2.2).2.2.2) := by
  induction xs generalizing db with
  | nil => simp [processToolCallsS]
  | cons a tl ih => simp [processToolCallsS, ih]

/-- The streaming audit log lists exactly the requested tool names in
order. -/
theorem processToolCallsS_names (reg : List ATool) (xs : List ToolCall)
    (db : DB) :
    (processToolCallsS reg xs db).2.2.1.map (·.tool_name) = xs.map (·.name) := by
  induction xs generalizing db with
  | nil => rfl
  | cons a tl ih => simp [processToolCallsS, ih]

/-- Claim C7: tool calls of one LLM response are executed strictly in the
returned order — in both loops, the processing of `xs ++ ys` is the
processing of `xs` followed by the processing of `ys` started from the state
`xs` produced (so a later call observes every earlier mutation), the
accumulated log lists the calls in that order, and in streaming mode the
events of a call (`tool_start`, its forwarded tool events, `tool_end` with
its recorded result) are all emitted before the next call's lookup and
events. -/
theorem tool_calls_executed_in_order (reg : List ATool) (xs ys : List ToolCall)
    (tc : ToolCall) (db : DB) :
    processToolCalls reg (xs ++ ys) db
      = ((processToolCalls reg xs db).1
           ++ (processToolCalls reg ys (processToolCalls reg xs db).2.2).1,
         (processToolCalls reg xs db).2.1
           ++ (processToolCalls reg ys (processToolCalls reg xs db).2.2).2.1,
         (processToolCalls reg ys (processToolCalls reg xs db).2.2).2.2)
    ∧ (processToolCalls reg xs db).2.1.map (·.tool_name) = xs.map (·.name)
    ∧ processToolCallsS reg (xs ++ ys) db
      = ((processToolCallsS reg xs db).1
           ++ (processToolCallsS reg ys (processToolCallsS reg xs db).2.2.2).1,
         (processToolCallsS reg xs db).2.1
           ++ (processToolCallsS reg ys (processToolCallsS reg xs db).2.2.2).2.1,
         (processToolCallsS reg xs db).2.2.1
           ++ (processToolCallsS reg ys (processToolCallsS reg xs db).2.2.2).2.2.1,
         (processToolCallsS reg ys (processToolCallsS reg xs db).2.2.2).2.2.2)
    ∧ (processToolCallsS reg xs db).2.2.1.map (·.tool_name) = xs.map (·.name)
    ∧ (processToolCallsS reg (tc :: ys) db).1
      = SEvent.toolStart tc.name tc.arguments
          :: ((streamDispatch reg tc db).1
            ++ (SEvent.toolEnd tc.name (streamDispatch reg tc db).2.1
               :: (processToolCallsS reg ys (streamDispatch reg tc db).2.2).1)) :=
  ⟨processToolCalls_append reg xs ys db, processToolCalls_names reg xs db,
   processToolCallsS_append reg xs ys db, processToolCallsS_names reg xs db,
   rfl⟩

/-- The skip branch of the per-task loop: a duplicate trimmed title only
extends the skipped accumulator. -/
theorem confirmTasksGo_cons_skip (pid : Nat) (ex : List String) (total : Nat)
    (t : TaskDict) (rest : List TaskDict) (db : DB) (created : List Task)
    (skipped : List String) (h : strLower (strTrim t.title) ∈ ex) :
    confirmTasksGo pid ex total (t :: rest) db created skipped
      = confirmTasksGo pid ex total rest db created (skipped ++ [strTrim t.title]) := by
  simp [confirmTasksGo, h]

/-- The create branch of the per-task loop: a fresh trimmed title creates the
row and recurses on the mutated store with the created accumulator
extended (the emitted event is dropped by the `.2` projection). -/
theorem confirmTasksGo_cons_create (pid : Nat) (ex : List String) (total : Nat)
    (t : TaskDict) (rest : List TaskDict) (db : DB) (created : List Task)
    (skipped : List String) (h : strLower (strTrim t.title) ∉ ex) :
    (confirmTasksGo pid ex total (t :: rest) db created skipped).2
      = (confirmTasksGo pid ex total rest
          (taskRepoCreate db pid
            { title := strTrim t.title, description := t.description,
              priority := some (t.priority.getD "medium"), assignee := t.assignee,
              due_date := parseDueDate t.due_date }).2
          (created ++ [(taskRepoCreate db pid
            { title := strTrim t.title, description := t.description,
              priority := some (t.priority.getD "medium"), assignee := t.assignee,
              due_date := parseDueDate t.due_date }).1])
          skipped).2 := by
  simp [confirmTasksGo, h]

/-- The per-task loop of `confirm_proposed_tasks` creates one row per input
whose trimmed title is not among the pre-loaded lowercased titles (in input
order, appended to the store) and records the trimmed title of every other
input as skipped; plans and messages are untouched. -/
theorem confirmTasksGo_spec (pid : Nat) (ex : List String) (total : Nat)
    (ts : List TaskDict) :
    ∀ (db : DB) (created : List Task) (skipped : List String),
    ∃ newRows : List Task,
      (confirmTasksGo pid ex total ts db created skipped).2.1 = created ++ newRows
      ∧ newRows.map (·.title)
          = (ts.filter fun t => !ex.contains (strLower (strTrim t.title))).map (strTrim ·.title)
      ∧ (confirmTasksGo pid ex total ts db created skipped).2.2.1
          = skipped ++ (ts.filter fun t => ex.contains (strLower (strTrim t.title))).map (strTrim ·.title)
      ∧ (confirmTasksGo pid ex total ts db created skipped).2.2.2.tasks
          = db.tasks ++ newRows
      ∧ (confirmTasksGo pid ex total ts db created skipped).2.2.2.plans = db.plans
      ∧ (confirmTasksGo pid ex total ts db created skipped).2.2.2.msgs = db.msgs
      ∧ (∀ t ∈ newRows, t.project_id = pid) := by
  induction ts with
  | nil =>
    intro db created skipped
    exact ⟨[], by simp [confirmTasksGo], rfl, by simp [confirmTasksGo],
      by simp [confirmTasksGo], rfl, rfl, by simp⟩
  | cons t rest ih =>
    intro db created skipped
    by_cases h : strLower (strTrim t.title) ∈ ex
    · obtain ⟨newRows, hc, ht, hs, hdb, hplans, hmsgs, hpid⟩ :=
        ih db created (skipped ++ [strTrim t.title])
      rw [confirmTasksGo_cons_skip pid ex total t rest db created skipped h]
      refine ⟨newRows, hc, ?_, ?_, hdb, hplans, hmsgs, hpid⟩
      · simpa [List.filter_cons, h] using ht
      · rw [hs]; simp [List.filter_cons, h]
    · obtain ⟨newRows, hc, ht, hs, hdb, hplans, hmsgs, hpid⟩ :=
        ih (taskRepoCreate db pid
            { title := strTrim t.title, description := t.description,
              priority := some (t.priority.getD "medium"), assignee := t.assignee,
              due_date := parseDueDate t.due_date }).2
          (created ++ [(taskRepoCreate db pid
            { title := strTrim t.title, description := t.description,
              priority := some (t.priority.getD "medium"), assignee := t.assignee,
              due_date := parseDueDate t.due_date }).1])
          skipped
      have hstep := confirmTasksGo_cons_create pid ex total t rest db created skipped h
      refine ⟨(taskRepoCreate db pid
          { title := strTrim t.title, description := t.description,
            priority := some (t.priority.getD "medium"), assignee := t.assignee,
            due_date := parseDueDate t.due_date }).1 :: newRows,
        ?_, ?_, ?_, ?_, ?_, ?_, ?_⟩
      · show (confirmTasksGo pid ex total (t :: rest) db created skipped).2.1 = _
        rw [show (confirmTasksGo pid ex total (t :: rest) db created skipped).2.1
              = ((confirmTasksGo pid ex total (t :: rest) db created skipped).2).1 from rfl,
          hstep]
        rw [show ((confirmTasksGo pid ex total rest _ _ skipped).2).1
              = (confirmTasksGo pid ex total rest _ _ skipped).2.1 from rfl, hc]
        simp [List.append_assoc]
      · simp only [List.filter_cons]
        rw [List.map_cons]
        have hcond : (!ex.contains (strLower (strTrim t.title))) = true := by
          simpa using h
        rw [hcond]
        simp only [if_true, List.map_cons]
        rw [ht]
        rfl
      · show ((confirmTasksGo pid ex total (t :: rest) db created skipped).2).2.1 = _
        rw [hstep]
        rw [show ((confirmTasksGo pid ex total rest _ _ skipped).2).2.1
              = (confirmTasksGo pid ex total rest _ _ skipped).2.2.1 from rfl, hs]
        simp [List.filter_cons, h]
      · show ((confirmTasksGo pid ex total (t :: rest) db created skipped).2).2.2.tasks = _
        rw [hstep]
        rw [show ((confirmTasksGo pid ex total rest _ _ skipped).2).2.2.tasks
              = (confirmTasksGo pid ex total rest _ _ skipped).2.2.2.tasks from rfl, hdb]
        simp [taskRepoCreate, List.append_assoc]
      · show ((confirmTasksGo pid ex total (t :: rest) db created skipped).2).2.2.plans = _
        rw [hstep]
        rw [show ((confirmTasksGo pid ex total rest _ _ skipped).2).2.2.plans
              = (confirmTasksGo pid ex total rest _ _ skipped).2.2.2.plans from rfl, hplans]
        simp [taskRepoCreate]
      · show ((confirmTasksGo pid ex total (t :: rest) db created skipped).2).2.2.msgs = _
        rw [hstep]
        rw [show ((confirmTasksGo pid ex total rest _ _ skipped).2).2.2.msgs
              = (confirmTasksGo pid ex total rest _ _ skipped).2.2.2.msgs from rfl, hmsgs]
        simp [taskRepoCreate]
      · intro x hx
        rcases List.mem_cons.mp hx with hx | hx
        · rw [hx]; simp [taskRepoCreate]
        · exact hpid x hx

/-- Claim C3: `confirm_proposed_tasks` compares each proposed title (trimmed,
case-insensitively) against the project's existing task titles, creates
exactly the non-duplicates (appended in order, with plans and messages
untouched) and lists the duplicates as skipped; when at least one task is
created the result has `success: true` with the created/skipped partition,
and when every proposed title of a non-empty proposal is a duplicate it has
`success: false`, `count: 0` and an explanatory message.  No exception is
possible: the embedded execution is total. -/
theorem confirm_tasks_duplicate_guard (pid : Nat) (tasks : List TaskDict)
    (db : DB) :
    (confirmProposedTasksStreaming pid tasks db).2.2.tasks.map (·.title)
      = db.tasks.map (·.title) ++ (freshOf db pid tasks).map (strTrim ·.title)
    ∧ (confirmProposedTasksStreaming pid tasks db).2.2.plans = db.plans
    ∧ (confirmProposedTasksStreaming pid tasks db).2.2.msgs = db.msgs
    ∧ (freshOf db pid tasks ≠ [] →
        (confirmProposedTasksStreaming pid tasks db).2.1.get "success" .null
            = .bool true
        ∧ (confirmProposedTasksStreaming pid tasks db).2.1.get "count" .null
            = .num ((freshOf db pid tasks).length : Nat)
        ∧ ((confirmProposedTasksStreaming pid tasks db).2.1.get "tasks" .null).asArr.length
            = (freshOf db pid tasks).length
        ∧ (dupsOf db pid tasks ≠ [] →
            (confirmProposedTasksStreaming pid tasks db).2.1.get "skipped" .null
              = strArr ((dupsOf db pid tasks).map (strTrim ·.title))))
    ∧ (tasks ≠ [] → freshOf db pid tasks = [] →
        (confirmProposedTasksStreaming pid tasks db).2.1.get "success" .null
            = .bool false
        ∧ (confirmProposedTasksStreaming pid tasks db).2.1.get "count" .null
            = .num 0
        ∧ (confirmProposedTasksStreaming pid tasks db).2.1.get "tasks" .null
            = .arr []
        ∧ (confirmProposedTasksStreaming pid tasks db).2.1.get "skipped" .null
            = strArr ((dupsOf db pid tasks).map (strTrim ·.title))
        ∧ (confirmProposedTasksStreaming pid tasks db).2.1.get "message" .null
            = .str ("All " ++ toString (dupsOf db pid tasks).length
                ++ " task(s) already exist — nothing created.")) := by
  obtain ⟨newRows, hc, ht, hs, hdb, hplans, hmsgs, hpid⟩ :=
    confirmTasksGo_spec pid (existingLowerTitles db pid) tasks.length tasks db [] []
  have hc' : (confirmTasksGo pid (existingLowerTitles db pid)
      tasks.length tasks db [] []).2.1 = newRows := by simpa using hc
  have hs' : (confirmTasksGo pid (existingLowerTitles db pid)
      tasks.length tasks db [] []).2.2.1
        = (dupsOf db pid tasks).map (strTrim ·.title) := by
    simpa [dupsOf] using hs
  have ht' : newRows.map (·.title) = (freshOf db pid tasks).map (strTrim ·.title) := by
    simpa [freshOf] using ht
  have hlen : newRows.length = (freshOf db pid tasks).length := by
    have := congrArg List.length ht'
    simpa using this
  have hfreshnil : newRows = [] ↔ freshOf db pid tasks = [] := by
    constructor
    · intro h
      have : (freshOf db pid tasks).length = 0 := by rw [← hlen, h]; rfl
      exact List.eq_nil_of_length_eq_zero this
    · intro h
      have : newRows.length = 0 := by rw [hlen, h]; rfl
      exact List.eq_nil_of_length_eq_zero this
  have hout : confirmProposedTasksStreaming pid tasks db
      = (if newRows.isEmpty && !((dupsOf db pid tasks).map (strTrim ·.title)).isEmpty
         then ((confirmTasksGo pid (existingLowerTitles db pid)
                  tasks.length tasks db [] []).1,
           Json.obj [("success", .bool false),
             ("message", .str ("All "
               ++ toString ((dupsOf db pid tasks).map (strTrim ·.title)).length
               ++ " task(s) already exist — nothing created.")),
             ("skipped", strArr ((dupsOf db pid tasks).map (strTrim ·.title))),
             ("count", .num 0), ("tasks", .arr [])],
           (confirmTasksGo pid (existingLowerTitles db pid)
             tasks.length tasks db [] []).2.2.2)
         else ((confirmTasksGo pid (existingLowerTitles db pid)
                  tasks.length tasks db [] []).1,
           Json.obj [("success", .bool true),
             ("message", .str ("Created " ++ toString newRows.length
               ++ " task(s) successfully."
               ++ (if !((dupsOf db pid tasks).map (strTrim ·.title)).isEmpty then
                     " Skipped "
                       ++ toString ((dupsOf db pid tasks).map (strTrim ·.title)).length
                       ++ " duplicate(s): "
                       ++ String.intercalate ", "
                           ((dupsOf db pid tasks).map (strTrim ·.title)) ++ "."
                   else ""))),
             ("count", .num (newRows.length : Nat)),
             ("tasks", .arr (newRows.map fun t =>
               Json.obj [("id", .str (toString t.id)), ("title", .str t.title),
                 ("priority", .str t.priority)])),
             ("skipped", if ((dupsOf db pid tasks).map (strTrim ·.title)).isEmpty
               then .null else strArr ((dupsOf db pid tasks).map (strTrim ·.title)))],
           (confirmTasksGo pid (existingLowerTitles db pid)
             tasks.length tasks db [] []).2.2.2)) := by
    rw [← hc', ← hs']
    rfl
  have hdb23 : (confirmProposedTasksStreaming pid tasks db).2.2
      = (confirmTasksGo pid (existingLowerTitles db pid)
          tasks.length tasks db [] []).2.2.2 := by
    rw [hout]
    by_cases hcond : (newRows.isEmpty
        && !((dupsOf db pid tasks).map (strTrim ·.title)).isEmpty) = true
    · rw [if_pos hcond]
    · rw [if_neg hcond]
  refine ⟨?_, ?_, ?_, ?_, ?_⟩
  · rw [hdb23, hdb, List.map_append, ht']
  · rw [hdb23]; exact hplans
  · rw [hdb23]; exact hmsgs
  · intro hfresh
    have hne : newRows.isEmpty = false := by
      rcases hne' : newRows with _ | _
      · exact absurd (hfreshnil.mp hne') hfresh
      · rfl
    have hcf : ¬((newRows.isEmpty
        && !((dupsOf db pid tasks).map (strTrim ·.title)).isEmpty) = true) := by
      rw [hne]
      simp
    rw [hout, if_neg hcf]
    refine ⟨rfl, ?_, ?_, ?_⟩
    · show Json.num (newRows.length : Nat) = _
      rw [hlen]
    · show (newRows.map fun t =>
          Json.obj [("id", .str (toString t.id)), ("title", .str t.title),
            ("priority", .str t.priority)]).length = _
      rw [List.length_map, hlen]
    · intro hdup
      have hie : ((dupsOf db pid tasks).map (strTrim ·.title)).isEmpty = false := by
        rcases hd' : (dupsOf db pid tasks).map (strTrim ·.title) with _ | _
        · exact absurd (List.map_eq_nil_iff.mp hd') hdup
        · rw [hd']; rfl
      show (if ((dupsOf db pid tasks).map (strTrim ·.title)).isEmpty then Json.null
            else strArr ((dupsOf db pid tasks).map (strTrim ·.title)))
          = strArr ((dupsOf db pid tasks).map (strTrim ·.title))
      rw [hie]
      rfl
  · intro htasks hfresh
    have hnil : newRows = [] := hfreshnil.mpr hfresh
    have hdup : dupsOf db pid tasks ≠ [] := by
      intro hd
      rcases hts : tasks with _ | ⟨t0, rest⟩
      · exact htasks hts
      · rw [hts] at hfresh hd
        rcases hc0 : (existingLowerTitles db pid).contains (strLower (strTrim t0.title)) with _ | _
        · have hmem : t0 ∈ freshOf db pid (t0 :: rest) := by
            apply List.mem_filter.mpr
            refine ⟨List.mem_cons_self t0 rest, ?_⟩
            rw [hc0]; rfl
          rw [hfresh] at hmem
          exact absurd hmem (List.not_mem_nil t0)
        · have hmem : t0 ∈ dupsOf db pid (t0 :: rest) := by
            apply List.mem_filter.mpr
            exact ⟨List.mem_cons_self t0 rest, hc0⟩
          rw [hd] at hmem
          exact absurd hmem (List.not_mem_nil t0)
    have hcond : (newRows.isEmpty
        && !((dupsOf db pid tasks).map (strTrim ·.title)).isEmpty) = true := by
      rw [hnil]
      have hie : ((dupsOf db pid tasks).map (strTrim ·.title)).isEmpty = false := by
        rcases hd' : (dupsOf db pid tasks).map (strTrim ·.title) with _ | _
        · exact absurd (List.map_eq_nil_iff.mp hd') hdup
        · rw [hd']; rfl
      rw [hie]
      rfl
    rw [hout, if_pos hcond]
    refine ⟨rfl, rfl, rfl, rfl, ?_⟩
    show Json.str ("All " ++ toString ((dupsOf db pid tasks).map (strTrim ·.title)).length
        ++ " task(s) already exist — nothing created.") = _
    rw [List.length_map]

/-- Witness for `confirm_tasks_duplicate_guard` at the spec's example: with
"Fix login bug" existing, confirming both titles creates exactly
"Add dark mode" (`success: true`, skipped `["Fix login bug"]`), while
confirming only the duplicate yields `success: false` and `count: 0`. -/
theorem confirm_tasks_duplicate_guard_witness :
    (confirmProposedTasksStreaming 0 confirmBoth dbWithFixLogin).2.2.tasks.map (·.title)
      = ["Fix login bug", "Add dark mode"]
    ∧ (confirmProposedTasksStreaming 0 confirmBoth dbWithFixLogin).2.1.get "success" .null
      = .bool true
    ∧ (confirmProposedTasksStreaming 0 confirmBoth dbWithFixLogin).2.1.get "skipped" .null
      = strArr ["Fix login bug"]
    ∧ (confirmProposedTasksStreaming 0 confirmDupOnly dbWithFixLogin).2.1.get "success" .null
      = .bool false
    ∧ (confirmProposedTasksStreaming 0 confirmDupOnly dbWithFixLogin).2.1.get "count" .null
      = .num 0 := by
  have h := confirm_tasks_duplicate_guard 0 confirmBoth dbWithFixLogin
  have h' := confirm_tasks_duplicate_guard 0 confirmDupOnly dbWithFixLogin
  have h4 := h.2.2.2.1 (by decide)
  have h5 := h'.2.2.2.2 (by decide) (by decide)
  refine ⟨?_, h4.1, ?_, h5.1, h5.2.1⟩
  · rw [h.1]; rfl
  · rw [h4.2.2.2 (by decide)]; rfl

/-- The audit log of one iteration has one entry per requested call. -/
theorem processToolCalls_log_length (reg : List ATool) (xs : List ToolCall)
    (db : DB) :
    (processToolCalls reg xs db).2.1.length = xs.length := by
  have := congrArg List.length (processToolCalls_names reg xs db)
  simpa using this

/-- The streaming audit log of one iteration has one entry per requested
call. -/
theorem processToolCallsS_log_length (reg : List ATool) (xs : List ToolCall)
    (db : DB) :
    (processToolCallsS reg xs db).2.2.1.length = xs.length := by
  have := congrArg List.length (processToolCallsS_names reg xs db)
  simpa using this

/-- One tool-calling iteration of `run`'s loop: with tool calls present, the
loop recurses on the extended message list, extended log and mutated store,
and counts one more LLM call. -/
theorem agentLoop_step (llm : List LMsg → LLMResponse) (reg : List ATool)
    (pid : Nat) (n : Nat) (msgs : List LMsg) (log : List ToolCallLog) (db : DB)
    (hne : (llm msgs).tool_calls.isEmpty = false) :
    agentLoop llm reg pid (n + 1) msgs log db
      = ((agentLoop llm reg pid n
            (msgs ++ [assistantTurn (llm msgs),
              toolResultTurn (processToolCalls reg (llm msgs).tool_calls db).1])
            (log ++ (processToolCalls reg (llm msgs).tool_calls db).2.1)
            (processToolCalls reg (llm msgs).tool_calls db).2.2).1,
         (agentLoop llm reg pid n
            (msgs ++ [assistantTurn (llm msgs),
              toolResultTurn (processToolCalls reg (llm msgs).tool_calls db).1])
            (log ++ (processToolCalls reg (llm msgs).tool_calls db).2.1)
            (processToolCalls reg (llm msgs).tool_calls db).2.2).2.1,
         (agentLoop llm reg pid n
            (msgs ++ [assistantTurn (llm msgs),
              toolResultTurn (processToolCalls reg (llm msgs).tool_calls db).1])
            (log ++ (processToolCalls reg (llm msgs).tool_calls db).2.1)
            (processToolCalls reg (llm msgs).tool_calls db).2.2).2.2 + 1) := by
  simp [agentLoop, hne]

/-- A tool-call-free response ends `run`'s loop after this single LLM call,
persisting the assistant message. -/
theorem agentLoop_final (llm : List LMsg → LLMResponse) (reg : List ATool)
    (pid : Nat) (n : Nat) (msgs : List LMsg) (log : List ToolCallLog) (db : DB)
    (he : (llm msgs).tool_calls.isEmpty = true) :
    agentLoop llm reg pid (n + 1) msgs log db
      = ({ message := (llm msgs).content
           tool_calls := if log.isEmpty then none else some log },
         saveMessage db pid "assistant" (llm msgs).content (toolCallsPayload log),
         1) := by
  simp [agentLoop, he]

/-- The `run` loop makes at most `fuel` LLM calls. -/
theorem agentLoop_calls_le (llm : List LMsg → LLMResponse) (reg : List ATool)
    (pid : Nat) :
    ∀ (fuel : Nat) (msgs : List LMsg) (log : List ToolCallLog) (db : DB),
      (agentLoop llm reg pid fuel msgs log db).2.2 ≤ fuel := by
  intro fuel
  induction fuel with
  | zero => intro msgs log db; exact Nat.le_refl _
  | succ n ih =>
    intro msgs log db
    rcases he : (llm msgs).tool_calls.isEmpty with _ | _
    · rw [agentLoop_step llm reg pid n msgs log db he]
      exact Nat.succ_le_succ (ih _ _ _)
    · rw [agentLoop_final llm reg pid n msgs log db he]
      exact Nat.succ_le_succ (Nat.zero_le n)

/-- When every LLM response requests tools, `run`'s loop exhausts its fuel:
it makes exactly `fuel` LLM calls and returns the apology with a log that
extends the accumulator by at least one entry per iteration. -/
theorem agentLoop_apology (llm : List LMsg → LLMResponse) (reg : List ATool)
    (pid : Nat) (h : ∀ ms, (llm ms).tool_calls ≠ []) :
    ∀ (fuel : Nat) (msgs : List LMsg) (log : List ToolCallLog) (db : DB),
      ∃ l : List ToolCallLog,
        (agentLoop llm reg pid fuel msgs log db).1
          = { message := apologyMessage
              tool_calls := if l.isEmpty then none else some l }
        ∧ log.length + fuel ≤ l.length
        ∧ (agentLoop llm reg pid fuel msgs log db).2.2 = fuel := by
  intro fuel
  induction fuel with
  | zero =>
    intro msgs log db
    exact ⟨log, rfl, Nat.le_refl _, rfl⟩
  | succ n ih =>
    intro msgs log db
    have hne : (llm msgs).tool_calls.isEmpty = false := by
      rcases hh : (llm msgs).tool_calls with _ | _
      · exact absurd hh (h msgs)
      · rfl
    obtain ⟨l, h1, h2, h3⟩ := ih
      (msgs ++ [assistantTurn (llm msgs),
        toolResultTurn (processToolCalls reg (llm msgs).tool_calls db).1])
      (log ++ (processToolCalls reg (llm msgs).tool_calls db).2.1)
      (processToolCalls reg (llm msgs).tool_calls db).2.2
    refine ⟨l, ?_, ?_, ?_⟩
    · rw [agentLoop_step llm reg pid n msgs log db hne]
      exact h1
    · have hlog : (processToolCalls reg (llm msgs).tool_calls db).2.1.length
          = (llm msgs).tool_calls.length :=
        processToolCalls_log_length reg (llm msgs).tool_calls db
      have hpos : 0 < (llm msgs).tool_calls.length :=
        List.length_pos.mpr (h msgs)
      rw [List.length_append, hlog] at h2
      omega
    · rw [agentLoop_step llm reg pid n msgs log db hne, h3]

/-- One tool-calling iteration of `run_streaming`'s loop. -/
theorem agentLoopS_step (llmS : List LMsg → List String × Option LLMResponse)
    (reg : List ATool) (pid : Nat) (n done : Nat) (msgs : List LMsg)
    (log : List ToolCallLog) (db : DB)
    (hne : (((llmS msgs).2.getD
        { content := "", tool_calls := [], stop_reason := "error" }).tool_calls).isEmpty
      = false) :
    agentLoopS llmS reg pid (n + 1) done msgs log db
      = (SEvent.thinking "calling_llm" (done + 1) (!log.isEmpty)
            (match log.getLast? with | some l => some l.tool_name | none => none)
          :: ((llmS msgs).1.map SEvent.textDelta
            ++ ((processToolCallsS reg ((llmS msgs).2.getD
                  { content := "", tool_calls := [], stop_reason := "error" }).tool_calls db).1
              ++ (agentLoopS llmS reg pid n (done + 1)
                  (msgs ++ [assistantTurn ((llmS msgs).2.getD
                      { content := "", tool_calls := [], stop_reason := "error" }),
                    toolResultTurn (processToolCallsS reg ((llmS msgs).2.getD
                      { content := "", tool_calls := [], stop_reason := "error" }).tool_calls db).2.1])
                  (log ++ (processToolCallsS reg ((llmS msgs).2.getD
                      { content := "", tool_calls := [], stop_reason := "error" }).tool_calls db).2.2.1)
                  (processToolCallsS reg ((llmS msgs).2.getD
                      { content := "", tool_calls := [], stop_reason := "error" }).tool_calls db).2.2.2).1)),
         (agentLoopS llmS reg pid n (done + 1)
            (msgs ++ [assistantTurn ((llmS msgs).2.getD
                { content := "", tool_calls := [], stop_reason := "error" }),
              toolResultTurn (processToolCallsS reg ((llmS msgs).2.getD
                { content := "", tool_calls := [], stop_reason := "error" }).tool_calls db).2.1])
            (log ++ (processToolCallsS reg ((llmS msgs).2.getD
                { content := "", tool_calls := [], stop_reason := "error" }).tool_calls db).2.2.1)
            (processToolCallsS reg ((llmS msgs).2.getD
                { content := "", tool_calls := [], stop_reason := "error" }).tool_calls db).2.2.2).2.1,
         (agentLoopS llmS reg pid n (done + 1)
            (msgs ++ [assistantTurn ((llmS msgs).2.getD
                { content := "", tool_calls := [], stop_reason := "error" }),
              toolResultTurn (processToolCallsS reg ((llmS msgs).2.getD
                { content := "", tool_calls := [], stop_reason := "error" }).tool_calls db).2.1])
            (log ++ (processToolCallsS reg ((llmS msgs).2.getD
                { content := "", tool_calls := [], stop_reason := "error" }).tool_calls db).2.2.1)
            (processToolCallsS reg ((llmS msgs).2.getD
                { content := "", tool_calls := [], stop_reason := "error" }).tool_calls db).2.2.2).2.2 + 1) := by
  simp [agentLoopS, hne]

/-- A tool-call-free (or missing) streamed result ends `run_streaming`'s loop
with the terminal `response` event. -/
theorem agentLoopS_final (llmS : List LMsg → List String × Option LLMResponse)
    (reg : List ATool) (pid : Nat) (n done : Nat) (msgs : List LMsg)
    (log : List ToolCallLog) (db : DB)
    (he : (((llmS msgs).2.getD
        { content := "", tool_calls := [], stop_reason := "error" }).tool_calls).isEmpty
      = true) :
    agentLoopS llmS reg pid (n + 1) done msgs log db
      = (SEvent.thinking "calling_llm" (done + 1) (!log.isEmpty)
            (match log.getLast? with | some l => some l.tool_name | none => none)
          :: ((llmS msgs).1.map SEvent.textDelta
            ++ [SEvent.response ((llmS msgs).2.getD
                  { content := "", tool_calls := [], stop_reason := "error" }).content
                (if log.isEmpty then none else some log)]),
         saveMessage db pid "assistant" ((llmS msgs).2.getD
           { content := "", tool_calls := [], stop_reason := "error" }).content
           (toolCallsPayload log),
         1) := by
  simp [agentLoopS, he]

/-- The `run_streaming` loop makes at most `fuel` LLM calls. -/
theorem agentLoopS_calls_le (llmS : List LMsg → List String × Option LLMResponse)
    (reg : List ATool) (pid : Nat) :
    ∀ (fuel done : Nat) (msgs : List LMsg) (log : List ToolCallLog) (db : DB),
      (agentLoopS llmS reg pid fuel done msgs log db).2.2 ≤ fuel := by
  intro fuel
  induction fuel with
  | zero => intro done msgs log db; exact Nat.le_refl _
  | succ n ih =>
    intro done msgs log db
    rcases he : (((llmS msgs).2.getD
        { content := "", tool_calls := [], stop_reason := "error" }).tool_calls).isEmpty
        with _ | _
    · rw [agentLoopS_step llmS reg pid n done msgs log db he]
      exact Nat.succ_le_succ (ih _ _ _ _)
    · rw [agentLoopS_final llmS reg pid n done msgs log db he]
      exact Nat.succ_le_succ (Nat.zero_le n)

/-- When every streamed LLM result requests tools, `run_streaming`'s loop
exhausts its fuel: exactly `fuel` LLM calls, and the event stream ends with
the apology `response` event carrying the accumulated log. -/
theorem agentLoopS_apology (llmS : List LMsg → List String × Option LLMResponse)
    (reg : List ATool) (pid : Nat)
    (h : ∀ ms, ((llmS ms).2.getD
        { content := "", tool_calls := [], stop_reason := "error" }).tool_calls ≠ []) :
    ∀ (fuel done : Nat) (msgs : List LMsg) (log : List ToolCallLog) (db : DB),
      ∃ l : List ToolCallLog,
        (agentLoopS llmS reg pid fuel done msgs log db).1.getLast?
          = some (SEvent.response apologyMessage
              (if l.isEmpty then none else some l))
        ∧ log.length + fuel ≤ l.length
        ∧ (agentLoopS llmS reg pid fuel done msgs log db).2.2 = fuel := by
  intro fuel
  induction fuel with
  | zero =>
    intro done msgs log db
    exact ⟨log, rfl, Nat.le_refl _, rfl⟩
  | succ n ih =>
    intro done msgs log db
    have hne : (((llmS msgs).2.getD
        { content := "", tool_calls := [], stop_reason := "error" }).tool_calls).isEmpty
        = false := by
      rcases hh : ((llmS msgs).2.getD
          { content := "", tool_calls := [], stop_reason := "error" }).tool_calls with _ | _
      · exact absurd hh (h msgs)
      · rfl
    obtain ⟨l, h1, h2, h3⟩ := ih (done + 1)
      (msgs ++ [assistantTurn ((llmS msgs).2.getD
          { content := "", tool_calls := [], stop_reason := "error" }),
        toolResultTurn (processToolCallsS reg ((llmS msgs).2.getD
          { content := "", tool_calls := [], stop_reason := "error" }).tool_calls db).2.1])
      (log ++ (processToolCallsS reg ((llmS msgs).2.getD
          { content := "", tool_calls := [], stop_reason := "error" }).tool_calls db).2.2.1)
      (processToolCallsS reg ((llmS msgs).2.getD
          { content := "", tool_calls := [], stop_reason := "error" }).tool_calls db).2.2.2
    have hrecne : (agentLoopS llmS reg pid n (done + 1)
        (msgs ++ [assistantTurn ((llmS msgs).2.getD
            { content := "", tool_calls := [], stop_reason := "error" }),
          toolResultTurn (processToolCallsS reg ((llmS msgs).2.getD
            { content := "", tool_calls := [], stop_reason := "error" }).tool_calls db).2.1])
        (log ++ (processToolCallsS reg ((llmS msgs).2.getD
            { content := "", tool_calls := [], stop_reason := "error" }).tool_calls db).2.2.1)
        (processToolCallsS reg ((llmS msgs).2.getD
            { content := "", tool_calls := [], stop_reason := "error" }).tool_calls db).2.2.2).1
        ≠ [] := by
      intro hnil
      rw [hnil] at h1
      exact Option.noConfusion h1
    refine ⟨l, ?_, ?_, ?_⟩
    · rw [agentLoopS_step llmS reg pid n done msgs log db hne]
      rw [show (SEvent.thinking "calling_llm" (done + 1) (!log.isEmpty)
            (match log.getLast? with | some x => some x.tool_name | none => none)
          :: ((llmS msgs).1.map SEvent.textDelta
            ++ ((processToolCallsS reg ((llmS msgs).2.getD
                  { content := "", tool_calls := [], stop_reason := "error" }).tool_calls db).1
              ++ (agentLoopS llmS reg pid n (done + 1)
                  (msgs ++ [assistantTurn ((llmS msgs).2.getD
                      { content := "", tool_calls := [], stop_reason := "error" }),
                    toolResultTurn (processToolCallsS reg ((llmS msgs).2.getD
                      { content := "", tool_calls := [], stop_reason := "error" }).tool_calls db).2.1])
                  (log ++ (processToolCallsS reg ((llmS msgs).2.getD
                      { content := "", tool_calls := [], stop_reason := "error" }).tool_calls db).2.2.1)
                  (processToolCallsS reg ((llmS msgs).2.getD
                      { content := "", tool_calls := [], stop_reason := "error" }).tool_calls db).2.2.2).1)))
          = (SEvent.thinking "calling_llm" (done + 1) (!log.isEmpty)
              (match log.getLast? with | some x => some x.tool_name | none => none)
            :: ((llmS msgs).1.map SEvent.textDelta
              ++ (processToolCallsS reg ((llmS msgs).2.getD
                  { content := "", tool_calls := [], stop_reason := "error" }).tool_calls db).1))
            ++ (agentLoopS llmS reg pid n (done + 1)
                (msgs ++ [assistantTurn ((llmS msgs).2.getD
                    { content := "", tool_calls := [], stop_reason := "error" }),
                  toolResultTurn (processToolCallsS reg ((llmS msgs).2.getD
                    { content := "", tool_calls := [], stop_reason := "error" }).tool_calls db).2.1])
                (log ++ (processToolCallsS reg ((llmS msgs).2.getD
                    { content := "", tool_calls := [], stop_reason := "error" }).tool_calls db).2.2.1)
                (processToolCallsS reg ((llmS msgs).2.getD
                    { content := "", tool_calls := [], stop_reason := "error" }).tool_calls db).2.2.2).1
          from by simp]
      rw [List.getLast?_append_of_ne_nil _ hrecne]
      exact h1
    · have hlog : (processToolCallsS reg ((llmS msgs).2.getD
          { content := "", tool_calls := [], stop_reason := "error" }).tool_calls db).2.2.1.length
          = ((llmS msgs).2.getD
            { content := "", tool_calls := [], stop_reason := "error" }).tool_calls.length :=
        processToolCallsS_log_length reg _ db
      have hpos : 0 < ((llmS msgs).2.getD
          { content := "", tool_calls := [], stop_reason := "error" }).tool_calls.length :=
        List.length_pos.mpr (h msgs)
      rw [List.length_append, hlog] at h2
      omega
    · rw [agentLoopS_step llmS reg pid n done msgs log db hne, h3]

/-- Claim C2: `run` and `run_streaming` terminate after at most 10 agent-loop
iterations (LLM calls) for every LLM behavior; when no response is ever free
of tool calls, they make exactly 10 calls and return — respectively yield as
the terminal `response` event — the fixed apology message together with the
accumulated tool-call log (at least one entry per iteration); the ceiling
path is a returned value, not an exception: the embedded loops are total. -/
theorem agent_loop_terminates (llm : List LMsg → LLMResponse)
    (llmS : List LMsg → List String × Option LLMResponse)
    (reg : List ATool) (pid : Nat) (db : DB) (u : String) :
    (run llm reg pid db u).2.2 ≤ 10
    ∧ (runStreaming llmS reg pid db u).2.2 ≤ 10
    ∧ ((∀ ms, (llm ms).tool_calls ≠ []) →
        (run llm reg pid db u).1.message = apologyMessage
        ∧ (run llm reg pid db u).2.2 = 10
        ∧ ∃ l, (run llm reg pid db u).1.tool_calls = some l ∧ 10 ≤ l.length)
    ∧ ((∀ ms, ((llmS ms).2.getD
          { content := "", tool_calls := [], stop_reason := "error" }).tool_calls ≠ []) →
        (runStreaming llmS reg pid db u).2.2 = 10
        ∧ ∃ l, (runStreaming llmS reg pid db u).1.getLast?
            = some (SEvent.response apologyMessage (some l)) ∧ 10 ≤ l.length) := by
  refine ⟨agentLoop_calls_le llm reg pid 10 _ _ _,
    agentLoopS_calls_le llmS reg pid 10 0 _ _ _, ?_, ?_⟩
  · intro h
    obtain ⟨l, h1, h2, h3⟩ := agentLoop_apology llm reg pid h 10
      (let db0 := saveMessage db pid "user" u none
       let history := getChatHistory db0 pid 10
       if !tailEndsWith history u then
         history ++ [{ role := "user", content := .text u }]
       else history)
      [] (saveMessage db pid "user" u none)
    have hlen : 10 ≤ l.length := by simpa using h2
    have hne : l.isEmpty = false := by
      rcases hl : l with _ | _
      · rw [hl] at hlen; simp at hlen
      · rfl
    rw [hne] at h1
    simp only [Bool.false_eq_true, if_false] at h1
    refine ⟨?_, h3, l, ?_, hlen⟩
    · rw [show (run llm reg pid db u).1
          = (agentLoop llm reg pid 10
              (let db0 := saveMessage db pid "user" u none
               let history := getChatHistory db0 pid 10
               if !tailEndsWith history u then
                 history ++ [{ role := "user", content := .text u }]
               else history)
              [] (saveMessage db pid "user" u none)).1 from rfl, h1]
    · rw [show (run llm reg pid db u).1
          = (agentLoop llm reg pid 10
              (let db0 := saveMessage db pid "user" u none
               let history := getChatHistory db0 pid 10
               if !tailEndsWith history u then
                 history ++ [{ role := "user", content := .text u }]
               else history)
              [] (saveMessage db pid "user" u none)).1 from rfl, h1]
  · intro h
    obtain ⟨l, h1, h2, h3⟩ := agentLoopS_apology llmS reg pid h 10 0
      (let db0 := saveMessage db pid "user" u none
       let history := getChatHistory db0 pid 10
       if !tailEndsWith history u then
         history ++ [{ role := "user", content := .text u }]
       else history)
      [] (saveMessage db pid "user" u none)
    have hlen : 10 ≤ l.length := by simpa using h2
    have hne : l.isEmpty = false := by
      rcases hl : l with _ | _
      · rw [hl] at hlen; simp at hlen
      · rfl
    rw [hne] at h1
    simp only [Bool.false_eq_true, if_false] at h1
    refine ⟨h3, l, ?_, hlen⟩
    rw [show (runStreaming llmS reg pid db u).1
        = (agentLoopS llmS reg pid 10 0
            (let db0 := saveMessage db pid "user" u none
             let history := getChatHistory db0 pid 10
             if !tailEndsWith history u then
               history ++ [{ role := "user", content := .text u }]
             else history)
            [] (saveMessage db pid "user" u none)).1 from rfl, h1]

/-- Witness for `agent_loop_terminates`: under the always-tool-calling
script, both loops stop after exactly 10 LLM calls with the apology. -/
theorem agent_loop_terminates_witness :
    (run alwaysToolLlm [] 0 DB.empty "hi").1.message = apologyMessage
    ∧ (run alwaysToolLlm [] 0 DB.empty "hi").2.2 = 10
    ∧ (runStreaming alwaysToolLlmS [] 0 DB.empty "hi").2.2 = 10 := by
  have h := agent_loop_terminates alwaysToolLlm alwaysToolLlmS [] 0 DB.empty "hi"
  have h3 := h.2.2.1 (fun ms => by simp [alwaysToolLlm])
  have h4 := h.2.2.2 (fun ms => by simp [alwaysToolLlmS, alwaysToolLlm])
  exact ⟨h3.1, h3.2.1, h4.1⟩

end PMAssist
